import Mathlib

/-!
Verification of the `imapd` IMAP server package (samuel/go-imapd).

The Go sources embedded here:
  * `imapd/util.go`  — `parseRangeSet`, `parseMessageDataItemNames`, the
    data-item tokenizer regular expression, the validity and shorthand tables;
  * `imapd/imapd.go` — `sendobject` and the `serve` command loop;
  * `imapd/interface.go` — the `Backend` / `Mailbox` collaborator contracts.

Machine integers are modelled as `Nat` with explicit range checks where the Go
code performs them (`strconv.ParseUint(_, 10, 32)`, `strconv.Atoi`).  Go
functions that can panic (index / slice out of range, method call on a nil
interface) are modelled with an explicit `panicked` outcome.  All definitions
are executable so theorems about concrete inputs evaluate by `decide` / `rfl`.
-/

namespace Imapd

/-! ## Basic string machinery (Go `strings` / `strconv` subset)

Implemented structurally over `List Char` so that the kernel can evaluate
everything; `String` in Lean is a structure over `List Char`, so these agree
with the byte-level Go operations on the ASCII inputs this protocol handles.
-/

/-- Go `strings.Split(s, sep)` for a one-character separator, over char lists. -/
def splitCharAux (sep : Char) : List Char → List Char → List (List Char)
  | [], acc => [acc.reverse]
  | c :: rest, acc =>
    if c = sep then acc.reverse :: splitCharAux sep rest []
    else splitCharAux sep rest (c :: acc)

/-- Go `strings.Split(s, string(sep))`. -/
def splitGo (s : String) (sep : Char) : List String :=
  (splitCharAux sep s.data []).map (fun cs => ⟨cs⟩)

/-- The ASCII part of Go `unicode.IsSpace` (used by `strings.TrimSpace`). -/
def isGoSpace (c : Char) : Bool :=
  c = ' ' || c = '\t' || c = '\n' || c = '\x0b' || c = '\x0c' || c = '\r'

/-- Go `strings.TrimSpace` (ASCII whitespace; the inputs reaching it here are
ASCII protocol text). -/
def trimSpaceGo (s : String) : String :=
  ⟨((s.data.dropWhile isGoSpace).reverse.dropWhile isGoSpace).reverse⟩

/-- Go `strings.ToLower` on ASCII. -/
def lowerStr (s : String) : String := ⟨s.data.map Char.toLower⟩

/-- Go `strings.ToUpper` on ASCII. -/
def upperStr (s : String) : String := ⟨s.data.map Char.toUpper⟩

/-- Go `strings.Join(l, " ")`. -/
def joinSpace : List String → String
  | [] => ""
  | [x] => x
  | x :: y :: rest => x ++ " " ++ joinSpace (y :: rest)

/-- Go slice expression `s[lo:hi]` (the call sites below only slice in bounds). -/
def strSlice (s : String) (lo hi : Nat) : String :=
  ⟨(s.data.drop lo).take (hi - lo)⟩

/-- Numeric value of a digit string (most significant first). -/
def digitsToNat (cs : List Char) : Nat :=
  cs.foldl (fun a c => a * 10 + (c.toNat - '0'.toNat)) 0

/-- Go `strconv.ParseUint(s, 10, bitSize)`: digits only, value below
`2 ^ bitSize`; `none` models a returned error. -/
def parseUint (s : String) (bitSize : Nat) : Option Nat :=
  if s.data.isEmpty then none
  else if s.data.all Char.isDigit then
    let v := digitsToNat s.data
    if v < 2 ^ bitSize then some v else none
  else none

/-- Go `strconv.Atoi` on the digit strings produced by the tokenizer below
(64-bit `int`; overflow is a returned error). -/
def atoiGo (s : String) : Option Nat :=
  if s.data.isEmpty then none
  else if s.data.all Char.isDigit then
    let v := digitsToNat s.data
    if v < 2 ^ 63 then some v else none
  else none

/-! ## Range sets (`imapd/util.go`, `parseRangeSet`) -/

/-- `Range` from `imapd/util.go`: `Start`, `End`, `Infinite` (uint32 fields). -/
structure Range where
  Start : Nat
  End : Nat
  Infinite : Bool
deriving Repr, DecidableEq

/-- The body of the loop in `parseRangeSet`: one comma-separated token.
`none` models the early `return nil`. -/
def parseRangeSetToken (s : String) : Option Range :=
  if s.data.length = 0 then none
  else
    let p := splitGo s ':'
    if p.length > 2 then none
    else
      match parseUint (p.headD "") 32 with
      | none => none
      | some start =>
        if p.length > 1 then
          if p.getD 1 "" = "*" then some ⟨start, 0, true⟩
          else
            match parseUint (p.getD 1 "") 32 with
            | none => none
            | some e => some ⟨start, e, false⟩
        else some ⟨start, 0, false⟩

/-- The loop of `parseRangeSet`: all tokens must parse, order preserved. -/
def parseRangeSetGo : List String → Option (List Range)
  | [] => some []
  | s :: rest =>
    match parseRangeSetToken s with
    | none => none
    | some r =>
      match parseRangeSetGo rest with
      | none => none
      | some l => some (r :: l)

/-- `parseRangeSet` from `imapd/util.go`; `none` models the `nil` result. -/
def parseRangeSet (rs : String) : Option (List Range) :=
  parseRangeSetGo (splitGo rs ',')

/-- Claim-side token grammar for C6, following the specification's words:
a token is a bare unsigned 32-bit integer `n`, or `a:b`, or `a:*`; an empty
token, more than one colon, a non-numeric start, or a non-numeric end that is
not `*` is a parse failure. -/
def claimRangeToken (s : String) : Option Range :=
  match splitGo s ':' with
  | [a] =>
    if a = "" then none
    else (parseUint a 32).map (fun n => ⟨n, 0, false⟩)
  | [a, b] =>
    match parseUint a 32 with
    | none => none
    | some n =>
      if b = "*" then some ⟨n, 0, true⟩
      else (parseUint b 32).map (fun e => ⟨n, e, false⟩)
  | _ => none

theorem splitCharAux_ne_nil (sep : Char) (cs acc : List Char) :
    splitCharAux sep cs acc ≠ [] := by
  induction cs generalizing acc with
  | nil => simp [splitCharAux]
  | cons c rest ih =>
    simp only [splitCharAux]
    split
    · simp
    · exact ih _

theorem splitCharAux_singleton (sep : Char) (cs acc x : List Char)
    (h : splitCharAux sep cs acc = [x]) : x = acc.reverse ++ cs := by
  induction cs generalizing acc with
  | nil => simp [splitCharAux] at h; simp [h]
  | cons c rest ih =>
    simp only [splitCharAux] at h
    split at h
    · rename_i hc
      have := splitCharAux_ne_nil sep rest []
      cases hrest : splitCharAux sep rest [] with
      | nil => exact absurd hrest this
      | cons y ys => rw [hrest] at h; simp at h
    · have := ih (c :: acc) h
      simpa using this

theorem parseRangeSetToken_eq_claim (s : String) :
    parseRangeSetToken s = claimRangeToken s := by
  by_cases hs : s.data = []
  · have hsplit : splitGo s ':' = [""] := by
      have : s = "" := by cases s; simp_all
      subst this; rfl
    simp [parseRangeSetToken, claimRangeToken, hs, hsplit, parseUint]
  · cases hp : splitGo s ':' with
    | nil =>
      exact absurd (by simpa [splitGo] using congrArg (List.map String.data) hp)
        (by simpa using splitCharAux_ne_nil ':' s.data [])
    | cons a tl =>
      cases tl with
      | nil =>
        have ha : a ≠ "" := by
          have : a.data = s.data := by
            have h0 : (splitCharAux ':' s.data []).map (fun cs => (⟨cs⟩ : String)) = [a] := hp
            cases hsp : splitCharAux ':' s.data [] with
            | nil => exact absurd hsp (splitCharAux_ne_nil ':' s.data [])
            | cons y ys =>
              rw [hsp] at h0
              simp at h0
              have := splitCharAux_singleton ':' s.data [] y (by rw [hsp, h0.2])
              simp at this
              rw [← h0.1, this]
          intro hcon
          rw [hcon] at this
          exact hs (by simpa using this.symm)
        simp only [parseRangeSetToken, claimRangeToken, hp]
        have hlen : ¬s.data.length = 0 := fun h => hs (List.length_eq_zero.mp h)
        simp only [if_neg hlen]
        simp only [List.length_cons, List.length_nil]
        norm_num
        cases parseUint a 32 with
        | none => simp [ha]
        | some n => simp [ha]
      | cons b tl2 =>
        cases tl2 with
        | nil =>
          simp only [parseRangeSetToken, claimRangeToken, hp]
          have hlen : ¬s.data.length = 0 := fun h => hs (List.length_eq_zero.mp h)
          simp only [if_neg hlen]
          simp only [List.length_cons, List.length_nil]
          norm_num
          cases parseUint a 32 with
          | none => simp
          | some n =>
            simp only [Option.map]
            by_cases hb : b = "*"
            · simp [hb]
            · simp only [if_neg hb]
              cases parseUint b 32 with
              | none => simp [hb]
              | some e => simp [hb]
        | cons c tl3 =>
          simp only [parseRangeSetToken, claimRangeToken, hp]
          have hlen : ¬s.data.length = 0 := fun h => hs (List.length_eq_zero.mp h)
          simp only [if_neg hlen]
          simp only [List.length_cons]
          have : (tl3.length + 1 + 1 + 1) > 2 := by omega
          simp [this]

theorem parseRangeSetGo_eq_mapM (l : List String) :
    parseRangeSetGo l = l.mapM claimRangeToken := by
  induction l with
  | nil => rfl
  | cons s rest ih =>
    simp only [parseRangeSetGo, parseRangeSetToken_eq_claim, List.mapM_cons]
    cases claimRangeToken s with
    | none => rfl
    | some r =>
      rw [ih]
      cases rest.mapM claimRangeToken <;> rfl

/-- C6: `parseRangeSet` is all-or-nothing and order-preserving: it equals the
token-wise parse (`mapM`) of the comma-separated tokens under the claim's token
grammar (`n` → `{n,0,false}`, `a:b` → `{a,b,false}`, `a:*` → `{a,0,true}`;
empty token, more than one colon, non-numeric start, or non-numeric end other
than `*` fails the entire parse), together with the concrete examples from the
specification. -/
theorem C6_parseRangeSet_allOrNothing :
    (∀ rs : String, parseRangeSet rs = (splitGo rs ',').mapM claimRangeToken) ∧
    parseRangeSet "1,2:4,5:*" =
      some [⟨1, 0, false⟩, ⟨2, 4, false⟩, ⟨5, 0, true⟩] ∧
    parseRangeSet "1:3" = some [⟨1, 3, false⟩] ∧
    parseRangeSet "1:*" = some [⟨1, 0, true⟩] ∧
    parseRangeSet "abc" = none := by
  refine ⟨fun rs => parseRangeSetGo_eq_mapM _, ?_, ?_, ?_, ?_⟩ <;> decide

/-! ## Message-data-item grammar (`imapd/util.go`)

The tokenizer is the Go regular expression

  `(?i)((body(?:\.peek)?)\[([a-z0-9\.]*)(\s\([a-z\-\s]*\))?\](<\d+.\d+>)?|[a-z0-9\.]+)(\s|$)`

run with `FindAllStringSubmatch(_, -1)`.  It is embedded as a recursive
matcher with the engine's leftmost-first semantics: at each position the first
alternative is tried before the second, optional groups are tried
greedily-with first, and `\d+` shrinks from its maximal run on failure.
-/

/-- RE2 `\s`: the characters `\t \n \f \r` and space. -/
def isRegexSpace (c : Char) : Bool :=
  c = '\t' || c = '\n' || c = '\x0c' || c = '\r' || c = ' '

/-- The character class `[a-z0-9\.]` under the `(?i)` flag. -/
def isSimpleNameChar (c : Char) : Bool := c.isAlpha || c.isDigit || c = '.'

/-- The character class `[a-z\-\s]` under the `(?i)` flag. -/
def isFieldListChar (c : Char) : Bool := c.isAlpha || c = '-' || isRegexSpace c

/-- One match of the tokenizer regular expression: the numbered submatches the
parser consumes (`s[0]`, `s[2]`, `s[3]`, `s[4]`, `s[5]` in the Go loop). -/
structure RawTok where
  m0 : String  -- submatch 0: full match, including the trailing `\s` if one matched
  m2 : String  -- submatch 2: the `body(\.peek)?` head; "" when the simple alternative matched
  m3 : String  -- submatch 3: the section keyword
  m4 : String  -- submatch 4: the ` (fields)` group with its space and parens, "" when absent
  m5 : String  -- submatch 5: the `<a.b>` suffix, "" when absent
deriving Repr, DecidableEq

/-- Case-insensitive literal match; returns the consumed original characters
and the remainder. -/
def matchCI : List Char → List Char → Option (List Char × List Char)
  | [], cs => some ([], cs)
  | _ :: _, [] => none
  | p :: ps, c :: cs =>
    if c.toLower = p then
      match matchCI ps cs with
      | some (a, b) => some (c :: a, b)
      | none => none
    else none

/-- The optional `\s\([a-z\-\s]*\)` field-name group. -/
def matchFields : List Char → Option (List Char × List Char)
  | c :: '(' :: rest =>
    if isRegexSpace c then
      match rest.dropWhile isFieldListChar with
      | ')' :: rest2 =>
        some (c :: '(' :: (rest.takeWhile isFieldListChar ++ [')']), rest2)
      | _ => none
    else none
  | _ => none

/-- One attempt at `.\d+>` (any single character, a maximal nonempty digit
run, then `>`) with the fixed first-run candidate `keep`. -/
def partTryOne (keep rest : List Char) : List (List Char × List Char) :=
  match rest with
  | [] => []
  | x :: rest2 =>
    let b := rest2.takeWhile Char.isDigit
    if b.isEmpty then []
    else
      match rest2.dropWhile Char.isDigit with
      | '>' :: rest4 => [('<' :: (keep ++ x :: (b ++ ['>'])), rest4)]
      | _ => []

/-- First-run candidates for `<\d+.\d+>` in backtracking order: the reversed
current run shrinks one digit at a time, the dropped digit becoming the next
candidate for the `.` position. -/
def partCandsRev : List Char → List Char → List (List Char × List Char)
  | [], _ => []
  | d :: revShorter, rest =>
    partTryOne (d :: revShorter).reverse rest ++ partCandsRev revShorter (d :: rest)

/-- All matches of the optional `(<\d+.\d+>)?` group at this position, in the
engine's backtracking order; the absent-group candidate is appended by the
caller. -/
def partCandidates (cs : List Char) : List (List Char × List Char) :=
  match cs with
  | '<' :: rest =>
    partCandsRev (rest.takeWhile Char.isDigit).reverse (rest.dropWhile Char.isDigit)
  | _ => []

/-- The final `(\s|$)` group. -/
def matchTail : List Char → Option (List Char × List Char)
  | [] => some ([], [])
  | c :: rest => if isRegexSpace c then some ([c], rest) else none

/-- The first alternative of the tokenizer:
`(body(?:\.peek)?)\[([a-z0-9\.]*)(\s\([a-z\-\s]*\))?\](<\d+.\d+>)?(\s|$)`. -/
def matchBodyAlt (cs : List Char) : Option (RawTok × List Char) :=
  match matchCI "body".data cs with
  | none => none
  | some (h1, rest1) =>
    let heads : List (List Char × List Char) :=
      match matchCI ".peek".data rest1 with
      | some (h2, rest2) => [(h1 ++ h2, rest2), (h1, rest1)]
      | none => [(h1, rest1)]
    heads.findSome? fun (hd : List Char × List Char) =>
      match hd.2 with
      | '[' :: restSec =>
        let sec := restSec.takeWhile isSimpleNameChar
        let rest0 := restSec.dropWhile isSimpleNameChar
        let fieldCands : List (List Char × List Char) :=
          (match matchFields rest0 with
           | some fc => [fc]
           | none => []) ++ [([], rest0)]
        fieldCands.findSome? fun (fld : List Char × List Char) =>
          match fld.2 with
          | ']' :: restB =>
            (partCandidates restB ++ [([], restB)]).findSome?
              fun (prt : List Char × List Char) =>
              match matchTail prt.2 with
              | some (tl, restEnd) =>
                some ({ m0 := ⟨hd.1 ++ '[' :: (sec ++ (fld.1 ++ ']' :: (prt.1 ++ tl)))⟩,
                        m2 := ⟨hd.1⟩, m3 := ⟨sec⟩, m4 := ⟨fld.1⟩,
                        m5 := ⟨prt.1⟩ }, restEnd)
              | none => none
          | _ => none
      | _ => none

/-- The second alternative `[a-z0-9\.]+(\s|$)` (maximal run; a shorter run
cannot satisfy the tail, so no backtracking arises). -/
def matchSimpleAlt (cs : List Char) : Option (RawTok × List Char) :=
  let run := cs.takeWhile isSimpleNameChar
  if run.isEmpty then none
  else
    match matchTail (cs.dropWhile isSimpleNameChar) with
    | some (tl, rest) =>
      some ({ m0 := ⟨run ++ tl⟩, m2 := "", m3 := "", m4 := "", m5 := "" }, rest)
    | none => none

/-- A match attempt at the current position; the `body...` alternative is
preferred (leftmost-first alternation). -/
def matchAt (cs : List Char) : Option (RawTok × List Char) :=
  match matchBodyAlt cs with
  | some r => some r
  | none => matchSimpleAlt cs

/-- `FindAllStringSubmatch(_, -1)`: successive leftmost matches, advancing one
character at a failing position.  Every match consumes at least one character,
so `fuel := length + 1` suffices. -/
def findAllAux : Nat → List Char → List RawTok
  | 0, _ => []
  | _ + 1, [] => []
  | fuel + 1, c :: rest =>
    match matchAt (c :: rest) with
    | some (t, restM) => t :: findAllAux fuel restM
    | none => findAllAux fuel rest

def findAllDataItemTokens (s : String) : List RawTok :=
  findAllAux (s.data.length + 1) s.data

/-- `MessageDataItemName` from `imapd/util.go`.  The Go field
`Partial []int` — a two-element `[start, count]` list or nil — is named
`Part` here. -/
structure MessageDataItemName where
  Name : String
  Section : String
  FieldNames : Option (List String)
  Part : Option (List Nat)
deriving Repr, DecidableEq

/-- The `validDataItemNames` allow-list from `imapd/util.go`. -/
def validDataItemNames (n : String) : Bool :=
  ["BODY", "BODY[]", "BODY.PEEK[]", "BODYSTRUCTURE", "ENVELOPE", "FLAGS",
   "INTERNALDATE", "RFC822", "RFC822.HEADER", "RFC822.SIZE", "RFC822.TEXT",
   "UID"].contains n

/-- A bare name item (only `Name` set), as in the Go composite literals
`{Name: "FLAGS"}`. -/
def bareItem (n : String) : MessageDataItemName := ⟨n, "", none, none⟩

/-- The fixed expansion table `macroMessageDataItemNames` from
`imapd/util.go`: a Go map whose only keys are the three literals below, so
lookup is case-sensitive. -/
def shorthandItemNames (s : String) : Option (List MessageDataItemName) :=
  if s = "FAST" then
    some [bareItem "FLAGS", bareItem "INTERNALDATE", bareItem "RFC822.SIZE"]
  else if s = "ALL" then
    some [bareItem "FLAGS", bareItem "INTERNALDATE", bareItem "RFC822.SIZE",
          bareItem "ENVELOPE"]
  else if s = "FULL" then
    some [bareItem "FLAGS", bareItem "INTERNALDATE", bareItem "RFC822.SIZE",
          bareItem "ENVELOPE", bareItem "BODY"]
  else none

/-- Errors returned by `parseMessageDataItemNames`: `ErrInvalidDataItem(s[0])`
carrying the raw matched token text, or a `strconv.Atoi` error from the
partial-fetch suffix. -/
inductive ParseErr
  | invalidItem (raw : String)
  | numErr (raw : String)
deriving Repr, DecidableEq

/-- Result of `parseMessageDataItemNames`, which in Go returns both an item
slice and an error value; `panicked` models the runtime panics reachable in
the Go code (indexing an empty string, slicing `"("`, a missing `p[1]`). -/
inductive ParseResult
  | ok (items : List MessageDataItemName)
  | err (items : List MessageDataItemName) (e : ParseErr)
  | panicked
deriving Repr, DecidableEq

/-- The per-token construction inside the loop of
`parseMessageDataItemNames`; `.inl` is an early exit (an `Atoi` error returns
`(nil, err)`, a missing `p[1]` panics), `.inr` the built item. -/
def buildDataItem (t : RawTok) : ParseResult ⊕ MessageDataItemName :=
  if t.m2 ≠ "" then
    let fieldNames : Option (List String) :=
      if t.m4 ≠ "" then
        some (splitGo (strSlice t.m4 2 (t.m4.data.length - 1)) ' ')
      else none
    if t.m5 ≠ "" then
      let p := splitGo (strSlice t.m5 1 (t.m5.data.length - 1)) '.'
      match p.get? 1 with
      | none => .inl .panicked
      | some p1 =>
        match atoiGo (p.headD "") with
        | none => .inl (.err [] (.numErr (p.headD "")))
        | some start =>
          match atoiGo p1 with
          | none => .inl (.err [] (.numErr p1))
          | some count =>
            .inr { Name := upperStr t.m2 ++ "[]", Section := upperStr t.m3,
                   FieldNames := fieldNames, Part := some [start, count] }
    else
      .inr { Name := upperStr t.m2 ++ "[]", Section := upperStr t.m3,
             FieldNames := fieldNames, Part := none }
  else
    .inr { Name := upperStr (trimSpaceGo t.m0), Section := "",
           FieldNames := none, Part := none }

/-- The loop over the regex matches in `parseMessageDataItemNames`: the first
token whose built name is not in the allow-list stops the loop, returning the
accumulated items together with `ErrInvalidDataItem(s[0])`. -/
def parseDataItemTokens : List RawTok → List MessageDataItemName → ParseResult
  | [], acc => .ok acc
  | t :: rest, acc =>
    match buildDataItem t with
    | .inl r => r
    | .inr item =>
      if validDataItemNames item.Name then parseDataItemTokens rest (acc ++ [item])
      else .err acc (.invalidItem t.m0)

/-- `parseMessageDataItemNames` from `imapd/util.go`.  `names[0]` on an empty
string and the slice `names[1:len(names)-1]` on `"("` panic in Go.  A
non-parenthesized input that is not an exact key of the expansion table falls
through to the tokenizer loop on the unstripped input. -/
def parseMessageDataItemNames (names : String) : ParseResult :=
  match names.data with
  | [] => .panicked
  | c0 :: _ =>
    if c0 ≠ '(' then
      match shorthandItemNames names with
      | some items => .ok items
      | none => parseDataItemTokens (findAllDataItemTokens names) []
    else
      if names.data.length < 2 then .panicked
      else
        parseDataItemTokens
          (findAllDataItemTokens (strSlice names 1 (names.data.length - 1))) []

-- Sanity: the four cases of `TestParseDataItemName` (`imapd/util_test.go`).
example : parseMessageDataItemNames "UID" = .ok [⟨"UID", "", none, none⟩] := by decide

example : parseMessageDataItemNames "(BODY[] RFC822.TEXT)" =
    .ok [⟨"BODY[]", "", none, none⟩, ⟨"RFC822.TEXT", "", none, none⟩] := by decide

example : parseMessageDataItemNames "(BODY.PEEK[HEADER.FIELDS (DATE FROM)]<5.20>)" =
    .ok [⟨"BODY.PEEK[]", "HEADER.FIELDS", some ["DATE", "FROM"], some [5, 20]⟩] := by
  decide

example : parseMessageDataItemNames "(UID INVALID)" =
    .err [⟨"UID", "", none, none⟩] (.invalidItem "INVALID") := by decide

/-- C3 counterexample: the expansion-table lookup
(`macroMessageDataItemNames[names]`) is a Go map lookup with the uppercase
literal keys only, hence case-sensitive: the bare token `fast` does not
expand — it falls through to the item tokenizer and fails with an
invalid-item error, so it is not true that every casing of a macro token
succeeds. -/
theorem C3_counterexample :
    parseMessageDataItemNames "fast" =
      ParseResult.err [] (ParseErr.invalidItem "fast") := by decide

/-- C3 amended: exactly the uppercase-spelled tokens `FAST`, `ALL`, `FULL`
expand, to the fixed fully-resolved ordered lists `[FLAGS, INTERNALDATE,
RFC822.SIZE]`, that list plus `ENVELOPE`, and that list plus `ENVELOPE` and
`BODY` respectively. -/
theorem C3_amended_uppercase_shorthands :
    parseMessageDataItemNames "FAST" =
      .ok [bareItem "FLAGS", bareItem "INTERNALDATE", bareItem "RFC822.SIZE"] ∧
    parseMessageDataItemNames "ALL" =
      .ok [bareItem "FLAGS", bareItem "INTERNALDATE", bareItem "RFC822.SIZE",
           bareItem "ENVELOPE"] ∧
    parseMessageDataItemNames "FULL" =
      .ok [bareItem "FLAGS", bareItem "INTERNALDATE", bareItem "RFC822.SIZE",
           bareItem "ENVELOPE", bareItem "BODY"] := by
  refine ⟨?_, ?_, ?_⟩ <;> decide

/-! ## The response encoder (`imapd/imapd.go`, `sendobject`)

`sendobject` switches on the dynamic type of its argument.  The closed set of
shapes is modelled as the inductive `Value`; `unsupported` stands for any Go
value outside the six handled types (for which the `switch` falls through
without writing anything).  The pair returned is `(bytes written, returned
error)`: no `case` of the Go `switch` returns, so control always reaches the
final `return errors.New("imapd: unknown type in sendobject")`. -/

/-- The components of a Go `time.Time` that the layout
`"02-Jan-2006 15:04:05 -0700"` consumes. -/
structure GoTime where
  year : Nat
  month : Nat   -- 1..12
  day : Nat
  hour : Nat
  minute : Nat
  second : Nat
  zoneOffsetSeconds : Int  -- seconds east of UTC
deriving Repr, DecidableEq

/-- The closed set of value shapes `sendobject` handles, plus `unsupported`
for anything else. -/
inductive Value
  | nil
  | int (n : Int)
  | str (s : String)
  | strList (l : List String)
  | time (t : GoTime)
  | bytes (b : List Nat)
  | unsupported
deriving Repr, DecidableEq

/-- Two-digit zero padding, as the layout digits `02`, `15`, `04`, `05`. -/
def pad2 (n : Nat) : String := if n < 10 then "0" ++ Nat.repr n else Nat.repr n

/-- Four-digit zero padding for the year field `2006`. -/
def pad4 (n : Nat) : String :=
  if n < 10 then "000" ++ Nat.repr n
  else if n < 100 then "00" ++ Nat.repr n
  else if n < 1000 then "0" ++ Nat.repr n
  else Nat.repr n

/-- Month abbreviation for the layout token `Jan`. -/
def monthAbbrev (m : Nat) : String :=
  match m with
  | 1 => "Jan" | 2 => "Feb" | 3 => "Mar" | 4 => "Apr" | 5 => "May" | 6 => "Jun"
  | 7 => "Jul" | 8 => "Aug" | 9 => "Sep" | 10 => "Oct" | 11 => "Nov" | 12 => "Dec"
  | _ => ""

/-- The layout token `-0700`: sign, two-digit hours, two-digit minutes. -/
def zoneStr (off : Int) : String :=
  let sign := if off < 0 then "-" else "+"
  let a := off.natAbs / 60
  sign ++ pad2 (a / 60) ++ pad2 (a % 60)

/-- `t.Format(internalDateFormat)` with
`internalDateFormat = "02-Jan-2006 15:04:05 -0700"` (`imapd/imapd.go`). -/
def formatInternalDate (t : GoTime) : String :=
  pad2 t.day ++ "-" ++ monthAbbrev t.month ++ "-" ++ pad4 t.year ++ " " ++
  pad2 t.hour ++ ":" ++ pad2 t.minute ++ ":" ++ pad2 t.second ++ " " ++
  zoneStr t.zoneOffsetSeconds

/-- `strings.Replace(t, quote, backslash-quote, -1)`: every `"` becomes `\"`;
backslashes pass through untouched. -/
def escapeQuotes (s : String) : String :=
  ⟨s.data.foldr (fun c acc => if c = '"' then '\\' :: '"' :: acc else c :: acc) []⟩

/-- Go `%d` on an integer. -/
def intRepr (n : Int) : String :=
  if n < 0 then "-" ++ Nat.repr n.natAbs else Nat.repr n.natAbs

/-- The raw bytes written for a `[]byte` literal (bytes as code points, which
is faithful for the ASCII payloads at issue). -/
def bytesAsOutput (b : List Nat) : String := ⟨b.map Char.ofNat⟩

/-- The error message of the `errors.New` at the end of `sendobject`. -/
def unknownTypeErrMsg : String := "imapd: unknown type in sendobject"

/-- `sendobject` from `imapd/imapd.go`: `(bytes written, returned error)`.
Each arm writes the wire encoding of its shape, but no arm returns, so every
call returns the unknown-type error (`[]byte` additionally would return early
only on an I/O error, which the pure model has none of). -/
def sendobject (v : Value) : String × Option String :=
  match v with
  | .nil => ("NIL", some unknownTypeErrMsg)
  | .int n => (intRepr n, some unknownTypeErrMsg)
  | .str s => ("\"" ++ escapeQuotes s ++ "\"", some unknownTypeErrMsg)
  | .strList l => ("(" ++ joinSpace l ++ ")", some unknownTypeErrMsg)
  | .time t => ("\"" ++ formatInternalDate t ++ "\"", some unknownTypeErrMsg)
  | .bytes b =>
    ("\x7b" ++ Nat.repr b.length ++ "\x7d\r\n" ++ bytesAsOutput b,
     some unknownTypeErrMsg)
  | .unsupported => ("", some unknownTypeErrMsg)

/-! ## Collaborator contracts (`imapd/interface.go`) and the session

Go collaborator methods return `(value, error)` pairs, and the `serve` code
sometimes uses the value even when the error is non-nil (notably
`s.mailbox, err = s.srv.Backend.Mailbox(...)`), so the model keeps both
components.  A method call on a nil interface value panics; `Ctl.panicked`
records that outcome. -/

/-- Collaborator error values: the sentinel `ErrUnknownMailbox` from
`imapd/interface.go`, or any other (internal) error. -/
inductive BErr
  | unknownMailbox
  | internalErr (msg : String)
deriving Repr, DecidableEq

/-- `MailboxInfo` from `imapd/interface.go`.  The `Unseen` field is referenced
by the STATUS handler in `imapd/imapd.go` although `interface.go` omits it;
it is included here as the evident intent. -/
structure MailboxInfo where
  NextUid : Nat
  UidValidity : Nat
  Exists : Nat
  Recent : Nat
  Unseen : Nat
deriving Repr, DecidableEq

/-- `MessageDataItem` from `imapd/interface.go` (`Data interface -> Value`). -/
structure MessageDataItem where
  Item : MessageDataItemName
  Data : Value

/-- A `Mailbox` collaborator: the results its two methods produce.  The
`FetchMessagesByUID` map is modelled as an association list in the iteration
order the collaborator yields (Go map range order is outside the core's
control). -/
structure MB where
  infoRes : MailboxInfo × Option BErr
  fetchRes : List Range → List MessageDataItemName →
    List (Nat × List MessageDataItem) × Option BErr

/-- A `Backend` collaborator: `Mailbox(name)` returns an interface value
(possibly nil) and an error (possibly nil). -/
def Backend := String → Option MB × Option BErr

/-- The mutable per-session fields of `session` (`imapd/imapd.go`) that the
command loop reads or writes; `mailbox` is the `Mailbox` interface field
(nil when no SELECT has succeeded). -/
structure SState where
  secure : Bool
  authenticated : Bool
  mailbox : Option MB

/-- Server configuration consumed by the command loop: whether
`srv.TlsConfig != nil` and `srv.InsecureLogin`. -/
structure Config where
  tlsConfigured : Bool
  insecureLogin : Bool
deriving Repr, DecidableEq

/-- What the command loop does after one command: read the next line
(`next`), return from `serve` (`halt`), or panic (`panicked`). -/
inductive Ctl
  | next
  | halt
  | panicked
deriving Repr, DecidableEq

/-- Result of handling one command: the session state afterwards, the chunks
written (one entry per `sendf`; `sendlinef` entries end in `\r\n`), and the
loop control outcome. -/
structure StepOut where
  state : SState
  out : List String
  ctl : Ctl

/-- The capability list built by the CAPABILITY handler. -/
def capsFor (cfg : Config) (st : SState) : List String :=
  let caps := ["IMAP4rev1"]
  let caps := if cfg.tlsConfigured then caps ++ ["STARTTLS"] else caps
  if st.secure || cfg.insecureLogin then caps ++ ["AUTH=login"]
  else caps ++ ["LOGINDISABLED"]

/-- The Go method `String()` on `MessageDataItemName` (`imapd/util.go`). -/
def MessageDataItemName.render (d : MessageDataItemName) : String :=
  if d.Section ≠ "" then
    strSlice d.Name 0 (d.Name.data.length - 2) ++ "[" ++ d.Section ++
      (match d.FieldNames with
       | some fns => " (" ++ joinSpace fns ++ ")"
       | none => "") ++ "]" ++
      (match d.Part with
       | some [a, b] => "<" ++ Nat.repr a ++ "." ++ Nat.repr b ++ ">"
       | _ => "")
  else d.Name

/-- One item of the STATUS response: unrecognized tokens are silently
dropped. -/
def statusItemChunk (info : MailboxInfo) (it : String) : List String :=
  match upperStr it with
  | "MESSAGES" => [s!"MESSAGES {info.Exists}"]
  | "RECENT" => [s!"RECENT {info.Recent}"]
  | "UIDNEXT" => [s!"UIDNEXT {info.NextUid}"]
  | "UIDVALIDITY" => [s!"UIDVALIDITY {info.UidValidity}"]
  | "UNSEEN" => [s!"UNSEEN {info.Unseen}"]
  | _ => []

/-- The chunks written by the UID FETCH success loop. -/
def fetchResponseChunks (items : List (Nat × List MessageDataItem)) :
    List String :=
  items.flatMap fun sn =>
    [s!"* {sn.1} FETCH ("] ++
    (sn.2.enum.map fun iv =>
      (if iv.1 = 0 then iv.2.Item.render ++ " " else " " ++ iv.2.Item.render ++ " ") ++
      (sendobject iv.2.Data).1) ++
    [")\r\n"]

/-- One iteration of the `serve` command loop after the line has been split
into `tag`, `cmd` and `args` (`imapd/imapd.go`).  `hsOk` is the outcome of
the TLS handshake should STARTTLS reach it. -/
def step (cfg : Config) (bk : Backend) (hsOk : Bool) (st : SState)
    (tag cmdRaw : String) (args : List String) : StepOut :=
  let cmd := lowerStr cmdRaw
  if cmd = "noop" then ⟨st, [s!"{tag} OK NOOP completed\r\n"], .next⟩
  else if cmd = "capability" then
    ⟨st, ["* CAPABILITY " ++ joinSpace (capsFor cfg st) ++ "\r\n",
          s!"{tag} OK CAPABILITY completed\r\n"], .next⟩
  else if cmd = "starttls" then
    if st.secure then ⟨st, [s!"{tag} NO connection already secure\r\n"], .next⟩
    else if !cfg.tlsConfigured then
      ⟨st, [s!"{tag} NO TLS not configured\r\n"], .next⟩
    else if hsOk then
      -- the sendlinef format string has no argument for its %s verb
      ⟨{ st with secure := true },
       ["%!s(MISSING) OK Begin TLS negotiation now\r\n"], .next⟩
    else ⟨st, ["%!s(MISSING) OK Begin TLS negotiation now\r\n"], .halt⟩
  else if cmd = "login" then
    if st.secure || cfg.insecureLogin then
      ⟨{ st with authenticated := true }, [s!"{tag} OK User logged in\r\n"], .next⟩
    else ⟨st, [s!"{tag} NO Login only supported over a secure connection\r\n"], .next⟩
  else if cmd = "close" then
    ⟨st, [s!"{tag} OK Returned to authenticated state. (Success)\r\n"], .next⟩
  else if cmd = "logout" then
    ⟨st, ["* BYE LOGOUT Requested\r\n", s!"{tag} OK 0 good day (Success)\r\n"], .next⟩
  else if cmd = "status" then
    if args.length < 2 then
      ⟨st, [s!"{tag} BAD Missing mailbox and item names\r\n"], .next⟩
    else
      let a0 := args.headD ""
      let a1 := args.getD 1 ""
      match bk a0 with
      | (_, some .unknownMailbox) => ⟨st, [s!"{tag} NO unknown mailbox\r\n"], .next⟩
      | (_, some (.internalErr _)) => ⟨st, [s!"{tag} NO internal error\r\n"], .next⟩
      | (none, none) => ⟨st, [], .panicked⟩  -- mb.Info() on a nil interface
      | (some mb, none) =>
        match mb.infoRes with
        | (_, some _) => ⟨st, [s!"{tag} NO internal error\r\n"], .next⟩
        | (info, none) =>
          if a1.data.length < 2 then
            -- args[1][1:len(args[1])-1] slices out of range
            ⟨st, [s!"* STATUS {a0} ("], .panicked⟩
          else
            ⟨st, [s!"* STATUS {a0} ("] ++
                 ((splitGo (strSlice a1 1 (a1.data.length - 1)) ' ').enum.flatMap
                   fun p => (if p.1 ≠ 0 then [" "] else []) ++ statusItemChunk info p.2) ++
                 [")\r\n"], .next⟩
  else if cmd = "select" then
    if args.length < 1 then ⟨st, [s!"{tag} BAD Missing mailbox name\r\n"], .next⟩
    else
      let res := bk (args.headD "")
      -- `s.mailbox, err = s.srv.Backend.Mailbox(args[0])`: the field is
      -- assigned before the error check
      let st' := { st with mailbox := res.1 }
      match res.2 with
      | some .unknownMailbox => ⟨st', [s!"{tag} NO unknown mailbox\r\n"], .next⟩
      | some (.internalErr _) => ⟨st', [s!"{tag} NO internal error\r\n"], .next⟩
      | none =>
        match res.1 with
        | none => ⟨st', [], .panicked⟩  -- s.mailbox.Info() on a nil interface
        | some mb =>
          match mb.infoRes with
          | (_, some _) => ⟨st', [s!"{tag} NO internal error\r\n"], .next⟩
          | (info, none) =>
            ⟨st', ["* FLAGS (\\Answered \\Flagged \\Draft \\Deleted \\Seen)\r\n",
                   "* OK [PERMANENTFLAGS (\\Answered \\Flagged \\Draft \\Deleted \\Seen \\*)]\r\n",
                   s!"* OK [UIDVALIDITY {info.UidValidity}]\r\n",
                   s!"* OK [UIDNEXT {info.NextUid}]\r\n",
                   s!"* {info.Exists} EXISTS\r\n",
                   s!"* {info.Recent} RECENT\r\n",
                   s!"{tag} OK [READ-WRITE] Completed\r\n"], .next⟩
  else if cmd = "list" then
    match args.get? 1 with
    | none => ⟨st, [], .panicked⟩  -- args[1] with fewer than two arguments
    | some a1 =>
      ⟨st, [(if a1 = "" then "* LIST (\\Noselect) \"/\" \"/\"\r\n"
             else "* LIST (\\HasNoChildren) \"/\" \"INBOX\"\r\n"),
            s!"{tag} OK LIST complete\r\n"], .next⟩
  else if cmd = "uid" then
    if args.length < 1 then ⟨st, [s!"{tag} BAD Missing command\r\n"], .next⟩
    else
      let sub := lowerStr (args.headD "")
      if sub = "fetch" then
        match args.tail with
        | [] => ⟨st, [], .panicked⟩  -- args[0] after the shift: no uid-set argument
        | a0 :: restArgs =>
          let rangeSet := parseRangeSet a0
          match parseMessageDataItemNames (joinSpace restArgs) with
          | .panicked => ⟨st, [], .panicked⟩
          | .err _ _ => ⟨st, [s!"{tag} BAD invalid item names\r\n"], .next⟩
          | .ok itemNames =>
            match rangeSet with
            | none => ⟨st, [s!"{tag} BAD invalid range\r\n"], .next⟩
            | some ranges =>
              match st.mailbox with
              | none => ⟨st, [], .panicked⟩
                -- s.mailbox.FetchMessagesByUID on a nil interface
              | some mb =>
                match mb.fetchRes ranges itemNames with
                | (_, some _) => ⟨st, [s!"{tag} BAD internal error\r\n"], .next⟩
                | (items, none) =>
                  ⟨st, fetchResponseChunks items ++ [s!"{tag} OK Success\r\n"], .next⟩
      else ⟨st, [s!"{tag} BAD Unknown command\r\n"], .next⟩
  else ⟨st, [s!"{tag} BAD Unknown command\r\n"], .next⟩

/-- One iteration of `serve` from the raw line: trim, split on single spaces,
fail the session on fewer than two tokens, otherwise dispatch. -/
def handleLine (cfg : Config) (bk : Backend) (hsOk : Bool) (st : SState)
    (line : String) : StepOut :=
  let parts := splitGo (trimSpaceGo line) ' '
  if parts.length < 2 then ⟨st, [], .halt⟩
  else step cfg bk hsOk st (parts.headD "") (parts.getD 1 "") (parts.drop 2)

/-- One parsed command for a multi-command run. -/
structure CmdInput where
  hsOk : Bool
  tag : String
  cmd : String
  args : List String

/-- The command loop over a list of commands: continues while the control
outcome is `next`. -/
def runCmds (cfg : Config) (bk : Backend) : SState → List CmdInput → SState
  | st, [] => st
  | st, c :: rest =>
    let o := step cfg bk c.hsOk st c.tag c.cmd c.args
    match o.ctl with
    | .next => runCmds cfg bk o.state rest
    | _ => o.state

/-! Concrete collaborators for closed theorems and witnesses. -/

/-- A mailbox whose `Info` succeeds with the metadata of the specification's
end-to-end example and whose fetch returns no messages. -/
def mbEmpty : MB :=
  { infoRes := ({ NextUid := 2, UidValidity := 3, Exists := 0, Recent := 0,
                  Unseen := 0 }, none),
    fetchRes := fun _ _ => ([], none) }

/-- A mailbox whose fetch fails with an internal error. -/
def mbFetchErr : MB :=
  { infoRes := ({ NextUid := 2, UidValidity := 3, Exists := 0, Recent := 0,
                  Unseen := 0 }, none),
    fetchRes := fun _ _ => ([], some (.internalErr "disk on fire")) }

/-- A backend on which every lookup fails with `ErrUnknownMailbox` (and, per
the Go convention, a nil mailbox value). -/
def bkUnknown : Backend := fun _ => (none, some .unknownMailbox)

/-- A backend on which every lookup fails with an internal error. -/
def bkInternal : Backend := fun _ => (none, some (.internalErr "db down"))

/-- A backend that always finds `mbEmpty`. -/
def bkEmpty : Backend := fun _ => (some mbEmpty, none)

/-- A plaintext server with no TLS material and insecure login disabled. -/
def cfgPlain : Config := { tlsConfigured := false, insecureLogin := false }

/-- A server with TLS material configured and insecure login disabled. -/
def cfgTls : Config := { tlsConfigured := true, insecureLogin := false }

/-! ## Claim theorems about the command loop -/

/-- C1 counterexample: a SELECT whose lookup fails does not leave the
selected mailbox unchanged from its prior value: with a mailbox selected, a
failing lookup overwrites `s.mailbox` with the backend's returned nil value
while sending the negative tagged response. -/
theorem C1_counterexample :
    (step cfgPlain bkUnknown true ⟨true, true, some mbEmpty⟩ "a2" "select"
        ["nope"]).out = ["a2 NO unknown mailbox\r\n"] ∧
    (step cfgPlain bkUnknown true ⟨true, true, some mbEmpty⟩ "a2" "select"
        ["nope"]).state.mailbox = none ∧
    (none : Option MB) ≠ some mbEmpty :=
  ⟨rfl, rfl, by simp⟩

/-- C1 amended: a SELECT with an argument always overwrites the mailbox field
with the value component returned by the lookup (`s.mailbox, err = ...` is
assigned before the error check).  A failed lookup (unknown mailbox or
internal error) sends the corresponding negative tagged response with that
overwrite (nil under the Go convention); an Info failure responds negatively
with the newly looked-up mailbox left selected; only a fully successful
SELECT both replaces the selection and answers positively. -/
theorem C1_amended_select_overwrites :
    (∀ cfg bk hs st tag name rest mbv,
      bk name = (mbv, some BErr.unknownMailbox) →
      step cfg bk hs st tag "select" (name :: rest) =
        ⟨{ st with mailbox := mbv }, [s!"{tag} NO unknown mailbox\r\n"], .next⟩) ∧
    (∀ cfg bk hs st tag name rest mbv msg,
      bk name = (mbv, some (BErr.internalErr msg)) →
      step cfg bk hs st tag "select" (name :: rest) =
        ⟨{ st with mailbox := mbv }, [s!"{tag} NO internal error\r\n"], .next⟩) ∧
    (∀ cfg bk hs st tag name rest mb info e,
      bk name = (some mb, none) → mb.infoRes = (info, some e) →
      step cfg bk hs st tag "select" (name :: rest) =
        ⟨{ st with mailbox := some mb }, [s!"{tag} NO internal error\r\n"], .next⟩) ∧
    (∀ cfg bk hs st tag name rest mb info,
      bk name = (some mb, none) → mb.infoRes = (info, none) →
      step cfg bk hs st tag "select" (name :: rest) =
        ⟨{ st with mailbox := some mb },
         ["* FLAGS (\\Answered \\Flagged \\Draft \\Deleted \\Seen)\r\n",
          "* OK [PERMANENTFLAGS (\\Answered \\Flagged \\Draft \\Deleted \\Seen \\*)]\r\n",
          s!"* OK [UIDVALIDITY {info.UidValidity}]\r\n",
          s!"* OK [UIDNEXT {info.NextUid}]\r\n",
          s!"* {info.Exists} EXISTS\r\n",
          s!"* {info.Recent} RECENT\r\n",
          s!"{tag} OK [READ-WRITE] Completed\r\n"], .next⟩) := by
  have e : lowerStr "select" = "select" := rfl
  refine ⟨?_, ?_, ?_, ?_⟩
  · intro cfg bk hs st tag name rest mbv hbk
    simp only [step, e, String.reduceEq, reduceIte, List.headD_cons, hbk,
      List.length_cons]
    simp
  · intro cfg bk hs st tag name rest mbv msg hbk
    simp only [step, e, String.reduceEq, reduceIte, List.headD_cons, hbk,
      List.length_cons]
    simp
  · intro cfg bk hs st tag name rest mb info er hbk hinfo
    simp only [step, e, String.reduceEq, reduceIte, List.headD_cons, hbk, hinfo,
      List.length_cons]
    simp
  · intro cfg bk hs st tag name rest mb info hbk hinfo
    simp only [step, e, String.reduceEq, reduceIte, List.headD_cons, hbk, hinfo,
      List.length_cons]
    simp

/-- C1 amended, witness: a concrete failed lookup overwrites a previously
selected mailbox with nil and answers `NO unknown mailbox`. -/
theorem C1_amended_witness :
    step cfgPlain bkUnknown true ⟨true, true, some mbEmpty⟩ "a3" "select"
        ["nope"] =
      ⟨⟨true, true, none⟩, ["a3 NO unknown mailbox\r\n"], .next⟩ :=
  C1_amended_select_overwrites.1 cfgPlain bkUnknown true ⟨true, true, some mbEmpty⟩
    "a3" "nope" [] none rfl

/-- C2: after LOGOUT's farewell notice and final tagged OK, the handler falls
through with control `next`: the command loop goes on to read another line
instead of terminating (the specification records this as the documented
defect of the reference behaviour). -/
theorem C2_logout_loop_continues :
    handleLine cfgPlain bkUnknown true ⟨false, false, none⟩ "a1 logout\r\n" =
      ⟨⟨false, false, none⟩,
       ["* BYE LOGOUT Requested\r\n", "a1 OK 0 good day (Success)\r\n"],
       .next⟩ ∧
    Ctl.next ≠ Ctl.halt :=
  ⟨rfl, by decide⟩

/-- C4 counterexample: when `FetchMessagesByUID` fails with an internal
error, the UID FETCH handler answers a tagged `BAD internal error` — not the
`NO` that the claim requires of every handler. -/
theorem C4_counterexample :
    (step cfgPlain bkEmpty true ⟨true, true, some mbFetchErr⟩ "a9" "uid"
        ["fetch", "1", "FLAGS"]).out = ["a9 BAD internal error\r\n"] ∧
    "a9 BAD internal error\r\n" ≠ "a9 NO internal error\r\n" :=
  ⟨rfl, by decide⟩

/-- C4 amended: internal (non-NotFound) collaborator errors always produce a
generic tagged response that never carries the underlying cause, and the
session continues; STATUS and SELECT answer `NO internal error`, while the
UID FETCH handler answers `BAD internal error`. -/
theorem C4_amended_internal_errors :
    (∀ cfg bk hs st tag name items mbv msg,
      bk name = (mbv, some (BErr.internalErr msg)) →
      step cfg bk hs st tag "status" [name, items] =
        ⟨st, [s!"{tag} NO internal error\r\n"], .next⟩) ∧
    (∀ cfg bk hs st tag name items mb info e,
      bk name = (some mb, none) → mb.infoRes = (info, some e) →
      step cfg bk hs st tag "status" [name, items] =
        ⟨st, [s!"{tag} NO internal error\r\n"], .next⟩) ∧
    (∀ cfg bk hs st tag name rest mbv msg,
      bk name = (mbv, some (BErr.internalErr msg)) →
      step cfg bk hs st tag "select" (name :: rest) =
        ⟨{ st with mailbox := mbv }, [s!"{tag} NO internal error\r\n"], .next⟩) ∧
    (∀ cfg bk hs st tag name rest mb info e,
      bk name = (some mb, none) → mb.infoRes = (info, some e) →
      step cfg bk hs st tag "select" (name :: rest) =
        ⟨{ st with mailbox := some mb }, [s!"{tag} NO internal error\r\n"], .next⟩) ∧
    (∀ cfg bk hs st tag a0 restArgs mb ranges itemNames fr e,
      st.mailbox = some mb →
      parseRangeSet a0 = some ranges →
      parseMessageDataItemNames (joinSpace restArgs) = .ok itemNames →
      mb.fetchRes ranges itemNames = (fr, some e) →
      step cfg bk hs st tag "uid" ("fetch" :: a0 :: restArgs) =
        ⟨st, [s!"{tag} BAD internal error\r\n"], .next⟩) := by
  have e1 : lowerStr "status" = "status" := rfl
  have e2 : lowerStr "select" = "select" := rfl
  have e3 : lowerStr "uid" = "uid" := rfl
  have e4 : lowerStr "fetch" = "fetch" := rfl
  refine ⟨?_, ?_, ?_, ?_, ?_⟩
  · intro cfg bk hs st tag name items mbv msg hbk
    simp only [step, e1, String.reduceEq, reduceIte, List.headD_cons, hbk,
      List.length_cons, List.length_nil, List.getD_cons_succ, List.getD_cons_zero]
    simp
  · intro cfg bk hs st tag name items mb info er hbk hinfo
    simp only [step, e1, String.reduceEq, reduceIte, List.headD_cons, hbk, hinfo,
      List.length_cons, List.length_nil, List.getD_cons_succ, List.getD_cons_zero]
    simp
  · intro cfg bk hs st tag name rest mbv msg hbk
    simp only [step, e2, String.reduceEq, reduceIte, List.headD_cons, hbk,
      List.length_cons]
    simp
  · intro cfg bk hs st tag name rest mb info er hbk hinfo
    simp only [step, e2, String.reduceEq, reduceIte, List.headD_cons, hbk, hinfo,
      List.length_cons]
    simp
  · intro cfg bk hs st tag a0 restArgs mb ranges itemNames fr er hmb hrange hitems hfetch
    simp only [step, e3, e4, String.reduceEq, reduceIte, List.headD_cons,
      List.tail_cons, List.length_cons, hmb, hrange, hitems, hfetch]
    simp

/-- C4 amended, witness: a concrete fetch-side internal error yields the
generic `BAD internal error` and the session continues. -/
theorem C4_amended_witness :
    step cfgPlain bkEmpty true ⟨true, true, some mbFetchErr⟩ "b1" "uid"
        ["fetch", "1", "FLAGS"] =
      ⟨⟨true, true, some mbFetchErr⟩, ["b1 BAD internal error\r\n"], .next⟩ :=
  C4_amended_internal_errors.2.2.2.2 cfgPlain bkEmpty true
    ⟨true, true, some mbFetchErr⟩ "b1" "1" ["FLAGS"] mbFetchErr
    [⟨1, 0, false⟩] [bareItem "FLAGS"] [] (.internalErr "disk on fire")
    rfl (by decide) (by decide) rfl

/-- C5: the encoder writes exactly the claimed wire form for each of the six
supported shapes (NIL; decimal digits; double-quoted text with embedded
quotes backslash-escaped and backslashes passed through; parenthesized
space-joined unquoted list; quoted `DD-Mon-YYYY HH:MM:SS ±ZZZZ` timestamp;
`\x7blength\x7d` + CRLF + raw bytes with no trailing terminator) — but,
contrary to the claim, it returns the unknown-type error on every call,
supported shapes included, because no case of the switch returns before the
final `return errors.New(...)`. -/
theorem C5_sendobject_always_errors :
    sendobject .nil = ("NIL", some unknownTypeErrMsg) ∧
    sendobject (.int 42) = ("42", some unknownTypeErrMsg) ∧
    sendobject (.str "a\"b\\c") = ("\"a\\\"b\\c\"", some unknownTypeErrMsg) ∧
    sendobject (.strList ["\\Seen", "\\Draft"]) =
      ("(\\Seen \\Draft)", some unknownTypeErrMsg) ∧
    sendobject (.time ⟨2004, 8, 8, 13, 51, 21, -18000⟩) =
      ("\"08-Aug-2004 13:51:21 -0500\"", some unknownTypeErrMsg) ∧
    sendobject (.bytes [104, 105]) =
      ("\x7b2\x7d\r\nhi", some unknownTypeErrMsg) ∧
    sendobject .unsupported = ("", some unknownTypeErrMsg) := by
  refine ⟨rfl, rfl, rfl, rfl, ?_, rfl, rfl⟩
  decide

set_option maxHeartbeats 2000000 in
theorem step_secure_mono (cfg : Config) (bk : Backend) (hs : Bool)
    (st : SState) (tag cmdRaw : String) (args : List String)
    (h : st.secure = true) :
    (step cfg bk hs st tag cmdRaw args).state.secure = true := by
  unfold step
  dsimp only
  by_cases h1 : lowerStr cmdRaw = "noop"
  · rw [if_pos h1]; exact h
  rw [if_neg h1]
  by_cases h2 : lowerStr cmdRaw = "capability"
  · rw [if_pos h2]; exact h
  rw [if_neg h2]
  by_cases h3 : lowerStr cmdRaw = "starttls"
  · rw [if_pos h3, if_pos h]; exact h
  rw [if_neg h3]
  by_cases h4 : lowerStr cmdRaw = "login"
  · rw [if_pos h4]
    by_cases h4a : (st.secure || cfg.insecureLogin) = true
    · rw [if_pos h4a]; exact h
    · rw [if_neg h4a]; exact h
  rw [if_neg h4]
  by_cases h5 : lowerStr cmdRaw = "close"
  · rw [if_pos h5]; exact h
  rw [if_neg h5]
  by_cases h6 : lowerStr cmdRaw = "logout"
  · rw [if_pos h6]; exact h
  rw [if_neg h6]
  by_cases h7 : lowerStr cmdRaw = "status"
  · rw [if_pos h7]
    by_cases h7a : args.length < 2
    · rw [if_pos h7a]; exact h
    rw [if_neg h7a]
    rcases hbk : bk (args.headD "") with ⟨mbv, errv⟩
    rcases errv with _ | err
    · rcases mbv with _ | mb
      · exact h
      · dsimp only
        rcases hinfo : mb.infoRes with ⟨info, ierr⟩
        rcases ierr with _ | e2
        · dsimp only
          by_cases h7b : (args.getD 1 "").data.length < 2
          · rw [if_pos h7b]; exact h
          · rw [if_neg h7b]; exact h
        · exact h
    · rcases mbv with _ | mb <;> rcases err with _ | msg <;> exact h
  rw [if_neg h7]
  by_cases h8 : lowerStr cmdRaw = "select"
  · rw [if_pos h8]
    by_cases h8a : args.length < 1
    · rw [if_pos h8a]; exact h
    rw [if_neg h8a]
    rcases hbk : bk (args.headD "") with ⟨mbv, errv⟩
    rcases errv with _ | err
    · rcases mbv with _ | mb
      · exact h
      · dsimp only
        rcases hinfo : mb.infoRes with ⟨info, ierr⟩
        rcases ierr with _ | e2 <;> exact h
    · rcases mbv with _ | mb <;> rcases err with _ | msg <;> exact h
  rw [if_neg h8]
  by_cases h9 : lowerStr cmdRaw = "list"
  · rw [if_pos h9]
    rcases ha1 : args.get? 1 with _ | a1 <;> exact h
  rw [if_neg h9]
  by_cases h10 : lowerStr cmdRaw = "uid"
  · rw [if_pos h10]
    by_cases h10a : args.length < 1
    · rw [if_pos h10a]; exact h
    rw [if_neg h10a]
    by_cases h10b : lowerStr (args.headD "") = "fetch"
    · rw [if_pos h10b]
      rcases htl : args.tail with _ | ⟨a0, restArgs⟩
      · exact h
      dsimp only
      rcases hparse : parseMessageDataItemNames (joinSpace restArgs) with
        items | ⟨items, e⟩ | _
      · rcases hrange : parseRangeSet a0 with _ | ranges
        · exact h
        rcases hmb : st.mailbox with _ | mb
        · exact h
        dsimp only
        rcases hf : mb.fetchRes ranges items with ⟨fr, ferr⟩
        rcases ferr with _ | fe <;> exact h
      · exact h
      · exact h
    · rw [if_neg h10b]; exact h
  rw [if_neg h10]
  exact h

theorem runCmds_secure_mono (cfg : Config) (bk : Backend) :
    ∀ (cmds : List CmdInput) (st : SState), st.secure = true →
      (runCmds cfg bk st cmds).secure = true := by
  intro cmds
  induction cmds with
  | nil => intro st h; simpa [runCmds] using h
  | cons c rest ih =>
    intro st h
    simp only [runCmds]
    split
    · exact ih _ (step_secure_mono _ _ _ _ _ _ _ h)
    · exact step_secure_mono _ _ _ _ _ _ _ h

/-- C7: the session's secure flag is monotonic: once true it stays true under
any sequence of commands; a STARTTLS (any casing) while already secure
answers `NO connection already secure` leaving the whole session state
unchanged, and a STARTTLS while insecure with no TLS material answers
`NO TLS not configured`, also leaving the state unchanged. -/
theorem C7_secure_monotonic :
    (∀ cfg bk st cmds, st.secure = true →
      (runCmds cfg bk st cmds).secure = true) ∧
    (∀ cfg bk hs st tag cmdRaw args, lowerStr cmdRaw = "starttls" →
      st.secure = true →
      step cfg bk hs st tag cmdRaw args =
        ⟨st, [s!"{tag} NO connection already secure\r\n"], .next⟩) ∧
    (∀ cfg bk hs st tag cmdRaw args, lowerStr cmdRaw = "starttls" →
      st.secure = false → cfg.tlsConfigured = false →
      step cfg bk hs st tag cmdRaw args =
        ⟨st, [s!"{tag} NO TLS not configured\r\n"], .next⟩) := by
  refine ⟨fun cfg bk st cmds h => runCmds_secure_mono cfg bk cmds st h, ?_, ?_⟩
  · intro cfg bk hs st tag cmdRaw args hcmd hsec
    simp only [step, hcmd, String.reduceEq, reduceIte, hsec]
  · intro cfg bk hs st tag cmdRaw args hcmd hsec htls
    simp only [step, hcmd, String.reduceEq, reduceIte, hsec, htls]
    simp

/-- C7 witness: a session that became secure stays secure across NOOP and a
second (mixed-case) STARTTLS; the concrete failing STARTTLS responses are as
stated. -/
theorem C7_witness :
    (runCmds cfgTls bkEmpty ⟨true, false, none⟩
      [⟨true, "a1", "noop", []⟩, ⟨true, "a2", "STARTTLS", []⟩]).secure = true ∧
    step cfgTls bkEmpty true ⟨true, false, none⟩ "a2" "StArTtLs" [] =
      ⟨⟨true, false, none⟩, ["a2 NO connection already secure\r\n"], .next⟩ ∧
    step cfgPlain bkEmpty true ⟨false, false, none⟩ "a3" "starttls" [] =
      ⟨⟨false, false, none⟩, ["a3 NO TLS not configured\r\n"], .next⟩ :=
  ⟨C7_secure_monotonic.1 cfgTls bkEmpty ⟨true, false, none⟩ _ rfl,
   C7_secure_monotonic.2.1 cfgTls bkEmpty true ⟨true, false, none⟩ "a2"
     "StArTtLs" [] rfl rfl,
   C7_secure_monotonic.2.2 cfgPlain bkEmpty true ⟨false, false, none⟩ "a3"
     "starttls" [] rfl rfl rfl⟩

/-- C8: the CAPABILITY handler sends the untagged capability line followed by
the tagged OK; the capability list always contains `IMAP4rev1`, contains
`STARTTLS` exactly when TLS material is configured (whether or not the
connection is already secure), and contains `AUTH=login` exactly when
`secure ∨ insecureLogin` — otherwise `LOGINDISABLED`. -/
theorem C8_capability_line :
    ∀ cfg bk hs st tag args,
      step cfg bk hs st tag "capability" args =
        ⟨st, ["* CAPABILITY " ++ joinSpace (capsFor cfg st) ++ "\r\n",
              s!"{tag} OK CAPABILITY completed\r\n"], .next⟩ ∧
      "IMAP4rev1" ∈ capsFor cfg st ∧
      ("STARTTLS" ∈ capsFor cfg st ↔ cfg.tlsConfigured = true) ∧
      ("AUTH=login" ∈ capsFor cfg st ↔
        (st.secure = true ∨ cfg.insecureLogin = true)) ∧
      ("LOGINDISABLED" ∈ capsFor cfg st ↔
        ¬(st.secure = true ∨ cfg.insecureLogin = true)) := by
  intro cfg bk hs st tag args
  have e : lowerStr "capability" = "capability" := rfl
  refine ⟨?_, ?_, ?_, ?_, ?_⟩
  · simp only [step, e, String.reduceEq, reduceIte]
  all_goals
    obtain ⟨tls, il⟩ := cfg
    obtain ⟨sec, auth, mbx⟩ := st
    cases tls <;> cases il <;> cases sec <;> simp [capsFor]

theorem parseDataItemTokens_abort (pre : List RawTok) (t : RawTok)
    (post : List RawTok) (acc : List MessageDataItemName)
    (hpre : ∀ t' ∈ pre, ∃ i, buildDataItem t' = Sum.inr i ∧
      validDataItemNames i.Name = true)
    (i : MessageDataItemName) (hbi : buildDataItem t = Sum.inr i)
    (hvi : validDataItemNames i.Name = false) :
    ∃ accFin, parseDataItemTokens (pre ++ t :: post) acc =
      .err accFin (.invalidItem t.m0) := by
  induction pre generalizing acc with
  | nil =>
    refine ⟨acc, ?_⟩
    simp only [List.nil_append, parseDataItemTokens, hbi, hvi]
    simp
  | cons p rest ih =>
    obtain ⟨ip, hbp, hvp⟩ := hpre p (List.mem_cons_self _ _)
    have h2 := ih (acc ++ [ip]) (fun t' ht' => hpre t' (List.mem_cons_of_mem _ ht'))
    simpa only [List.cons_append, parseDataItemTokens, hbp, hvp, if_true] using h2

/-- Reduction of `parseMessageDataItemNames` on a parenthesized input of
length at least two: strip the parens and run the token loop. -/
theorem parseMessageDataItemNames_paren (names : String) (cs : List Char)
    (hdata : names.data = '(' :: cs) (h : ¬(names.data.length < 2)) :
    parseMessageDataItemNames names =
      parseDataItemTokens
        (findAllDataItemTokens (strSlice names 1 (names.data.length - 1))) [] := by
  obtain ⟨cs0⟩ := names
  have hcs : cs0 = '(' :: cs := hdata
  subst hcs
  simp only [parseMessageDataItemNames]
  rw [if_neg (by simp), if_neg (by simpa using h)]

/-- C9: on a parenthesized item-list input, when the tokens before `t` all
build allow-listed items and `t` builds an item whose simple name is outside
the fixed 12-entry allow-list, the parse aborts at `t`, returning a failure
(`ErrInvalidDataItem`) that identifies the offending raw matched token
`t.m0`; and the enclosing UID FETCH handler treats every item-name parse
failure as fatal, answering a tagged `BAD invalid item names` without
delivering any partial item list. -/
theorem C9_first_invalid_aborts :
    (∀ (names : String) (restCs : List Char), names.data = '(' :: restCs →
      2 ≤ names.data.length →
      ∀ pre t post,
        findAllDataItemTokens (strSlice names 1 (names.data.length - 1)) =
          pre ++ t :: post →
        (∀ t' ∈ pre, ∃ i, buildDataItem t' = Sum.inr i ∧
          validDataItemNames i.Name = true) →
        (∃ i, buildDataItem t = Sum.inr i ∧ validDataItemNames i.Name = false) →
        ∃ accFin, parseMessageDataItemNames names =
          .err accFin (.invalidItem t.m0)) ∧
    (∀ cfg bk hs st tag a0 restArgs items e,
      parseMessageDataItemNames (joinSpace restArgs) = .err items e →
      step cfg bk hs st tag "uid" ("fetch" :: a0 :: restArgs) =
        ⟨st, [s!"{tag} BAD invalid item names\r\n"], .next⟩) := by
  constructor
  · intro names restCs hdata hlen pre t post hfind hpre hbad
    obtain ⟨i, hbi, hvi⟩ := hbad
    have h2 : ¬(names.data.length < 2) := by omega
    rw [parseMessageDataItemNames_paren names restCs hdata h2, hfind]
    exact parseDataItemTokens_abort pre t post [] hpre i hbi hvi
  · intro cfg bk hs st tag a0 restArgs items er hparse
    have e3 : lowerStr "uid" = "uid" := rfl
    have e4 : lowerStr "fetch" = "fetch" := rfl
    simp only [step, e3, e4, String.reduceEq, reduceIte, List.headD_cons,
      List.tail_cons, List.length_cons, hparse]
    simp

/-- C9 witness: `(UID INVALID)` aborts identifying the raw token `INVALID`,
and a UID FETCH carrying that item list answers `BAD invalid item names`. -/
theorem C9_witness :
    (∃ accFin, parseMessageDataItemNames "(UID INVALID)" =
      .err accFin (.invalidItem "INVALID")) ∧
    step cfgPlain bkEmpty true ⟨true, true, some mbEmpty⟩ "c1" "uid"
        ["fetch", "1", "(UID", "INVALID)"] =
      ⟨⟨true, true, some mbEmpty⟩, ["c1 BAD invalid item names\r\n"], .next⟩ :=
  ⟨C9_first_invalid_aborts.1 "(UID INVALID)" "UID INVALID)".data rfl (by decide)
      [⟨"UID ", "", "", "", ""⟩] ⟨"INVALID", "", "", "", ""⟩ []
      (by decide)
      (fun t' ht' => by
        rw [List.mem_singleton] at ht'
        exact ⟨bareItem "UID", by rw [ht']; decide, by decide⟩)
      ⟨bareItem "INVALID", by decide, by decide⟩,
   C9_first_invalid_aborts.2 cfgPlain bkEmpty true ⟨true, true, some mbEmpty⟩
     "c1" "1" ["(UID", "INVALID)"] [bareItem "UID"] (.invalidItem "INVALID")
     (by decide)⟩

/-- C10: a syntactically valid `UID FETCH` in a session where no SELECT has
succeeded (or whose last SELECT failed, leaving the mailbox field nil) does
NOT produce a tagged error: the handler calls `FetchMessagesByUID` on the nil
mailbox interface, a panic — the claim's guard does not exist in the code. -/
theorem C10_uid_fetch_nil_mailbox_panics :
    handleLine cfgPlain bkUnknown true ⟨true, true, none⟩
        "a1 uid fetch 1 FLAGS\r\n" =
      ⟨⟨true, true, none⟩, [], .panicked⟩ ∧
    (step cfgPlain bkUnknown true ⟨true, true, some mbEmpty⟩ "a1" "select"
        ["nope"]).state.mailbox = none ∧
    handleLine cfgPlain bkUnknown true
        (step cfgPlain bkUnknown true ⟨true, true, some mbEmpty⟩ "a1" "select"
          ["nope"]).state
        "a2 uid fetch 1 FLAGS\r\n" =
      ⟨⟨true, true, none⟩, [], .panicked⟩ :=
  ⟨rfl, rfl, rfl⟩

end Imapd
